import Mathlib

/-
Verification of the core data model of the basyx-python-sdk excerpt:
object stores and providers (basyx/aas/model/provider.py) and the
namespace-based identifier generator (basyx/aas/util/identification.py),
plus the name-keyed container contract (NamespaceSet) from the spec.

Python dicts are embedded as association lists with unique keys
(insertion-ordered, first match wins); object identity ("is") is embedded
by giving every object an oid field that is unique per live instance, so
that structural equality of embedded objects coincides with identity.
Fallible operations return Option: none embeds a raised KeyError.
-/

namespace Basyx

/-- Association-list lookup, embedding Python dict indexing: first entry
with the given key wins. -/
def alGet {α : Type} : List (String × α) → String → Option α
  | [], _ => none
  | (k', v) :: rest, k => if k' = k then some v else alGet rest k

/-- Association-list assignment, embedding Python dict assignment:
replaces the value at an existing key in place, otherwise appends the new
entry at the end (insertion order semantics). -/
def alSet {α : Type} : List (String × α) → String → α → List (String × α)
  | [], k, v => [(k, v)]
  | (k', v') :: rest, k, v =>
    if k' = k then (k', v) :: rest else (k', v') :: alSet rest k v

/-- Association-list deletion, embedding the del statement on a Python
dict: removes the first entry with the given key, if any. -/
def alDel {α : Type} : List (String × α) → String → List (String × α)
  | [], _ => []
  | (k', v') :: rest, k =>
    if k' = k then rest else (k', v') :: alDel rest k

/-- The keys of an association list, in order. -/
def alKeys {α : Type} (l : List (String × α)) : List String :=
  l.map Prod.fst

/-- An Identifiable object: oid embeds Python object identity (two
distinct live instances always have distinct oids), id is the global
identifier string. -/
structure Identifiable where
  oid : Nat
  id : String
deriving DecidableEq, Repr

/-- DictObjectStore from provider.py: a local in-memory object store
backed by a dict mapping identifier to Identifiable. -/
structure DictObjectStore where
  _backend : List (String × Identifiable)
deriving DecidableEq, Repr

/-- Well-formedness invariant of a DictObjectStore: the backend dict has
no duplicate keys (every Python dict satisfies this). -/
def DictObjectStore.WF (s : DictObjectStore) : Prop :=
  (alKeys s._backend).Nodup

instance (s : DictObjectStore) : Decidable s.WF := by
  unfold DictObjectStore.WF; infer_instance

/-- get_identifiable of DictObjectStore: "return self._backend[identifier]";
none embeds the KeyError raised on a missing key. -/
def DictObjectStore.get_identifiable (s : DictObjectStore) (identifier : String) :
    Option Identifiable :=
  alGet s._backend identifier

/-- add of DictObjectStore: raises KeyError (none) when the backend holds
a different instance under x.id, otherwise assigns self._backend[x.id] = x. -/
def DictObjectStore.add (s : DictObjectStore) (x : Identifiable) : Option DictObjectStore :=
  if (alGet s._backend x.id).isSome ∧ alGet s._backend x.id ≠ some x then
    none
  else
    some { _backend := alSet s._backend x.id x }

/-- discard of DictObjectStore: deletes the entry only when the backend
maps x.id to exactly the instance x, otherwise does nothing. -/
def DictObjectStore.discard (s : DictObjectStore) (x : Identifiable) : DictObjectStore :=
  if alGet s._backend x.id = some x then { _backend := alDel s._backend x.id } else s

/-- The argument of the contains test of DictObjectStore, which accepts
any object: an identifier string, an Identifiable, or anything else. -/
inductive ContainsArg where
  | str (s : String)
  | ident (x : Identifiable)
  | other
deriving DecidableEq, Repr

/-- contains of DictObjectStore: a string is tested for key membership,
an Identifiable for identity membership, anything else is not a member. -/
def DictObjectStore.contains (s : DictObjectStore) (x : ContainsArg) : Bool :=
  match x with
  | .str k => (alGet s._backend k).isSome
  | .ident x => alGet s._backend x.id = some x
  | .other => false

/-- len of DictObjectStore. -/
def DictObjectStore.length (s : DictObjectStore) : Nat :=
  s._backend.length

/-- update of AbstractObjectStore, as executed by DictObjectStore: adds
the elements one by one in iteration order; the Bool is true when some
add raised (Python propagates the exception), and the returned store is
the state at that moment, retaining all elements added before the
failing one. -/
def DictObjectStore.update (s : DictObjectStore) : List Identifiable → DictObjectStore × Bool
  | [] => (s, false)
  | x :: xs =>
    match s.add x with
    | some s' => s'.update xs
    | none => (s, true)

/-- A provider, abstracted to its get_identifiable capability: none embeds
a raised KeyError (NotFound). -/
def Provider : Type := String → Option Identifiable

/-- ObjectProviderMultiplexer from provider.py: an ordered list of
providers to query. -/
structure ObjectProviderMultiplexer where
  providers : List Provider

/-- The lookup loop of ObjectProviderMultiplexer.get_identifiable:
queries each provider in order, returns the first hit, raises KeyError
(none) after all providers missed. -/
def muxLookup : List Provider → String → Option Identifiable
  | [], _ => none
  | p :: ps, identifier =>
    match p identifier with
    | some v => some v
    | none => muxLookup ps identifier

/-- get_identifiable of ObjectProviderMultiplexer. -/
def ObjectProviderMultiplexer.get_identifiable (m : ObjectProviderMultiplexer)
    (identifier : String) : Option Identifiable :=
  muxLookup m.providers identifier

/-- An uppercase hex digit (the X format of Python). -/
def hexDigit (n : Nat) : Char :=
  if n < 10 then Char.ofNat (48 + n) else Char.ofNat (55 + n)

/-- Percent-encoding of a byte, as built by the quote-table construction
in identification.py: a percent sign followed by the byte in two
uppercase hex digits. -/
def percentEncode (n : Nat) : String :=
  String.mk ['%', hexDigit (n / 16 % 16), hexDigit (n % 16)]

/-- The code points quoted by the iri-segment quote table of
identification.py: colon, square brackets, at; bang, dollar, apostrophe,
parentheses, star, plus, comma, semicolon; space, double quote, angle
brackets, backslash, caret, backtick, curly braces, vertical bar. -/
def iriReservedCodes : List Nat :=
  [0x3A, 0x5B, 0x5D, 0x40,
   0x21, 0x24, 0x27, 0x28, 0x29, 0x2A, 0x2B, 0x2C, 0x3B,
   0x20, 0x22, 0x3C, 0x3E, 0x5C, 0x5E, 0x60, 0x7B, 0x7C, 0x7D]

/-- The translation of one character by the quote table: reserved
characters become their percent-encoding; code points 0 to 0x1E (the
table is built from range(0, 0x1f)) and 0x7F are deleted; every other
character is kept unchanged. -/
def quoteIriChar (c : Char) : String :=
  if c.toNat ∈ iriReservedCodes then percentEncode c.toNat
  else if c.toNat < 0x1f ∨ c.toNat = 0x7f then ""
  else String.singleton c

/-- The function _quote_iri_segment of identification.py, applying the
quote table to every character of the segment. -/
def _quote_iri_segment (segment : String) : String :=
  String.join (segment.data.map quoteIriChar)

/-- Is the character in the class a-zA-Z of the namespace regex? -/
def isRegexAlpha (c : Char) : Bool :=
  (97 ≤ c.toNat ∧ c.toNat ≤ 122) ∨ (65 ≤ c.toNat ∧ c.toNat ≤ 90)

/-- Is the character in the scheme-continuation class of the namespace
regex (letters, digits, plus, minus, dot)? -/
def isSchemeChar (c : Char) : Bool :=
  isRegexAlpha c ∨ (48 ≤ c.toNat ∧ c.toNat ≤ 57) ∨
    c = '+' ∨ c = '-' ∨ c = '.'

/-- Is the character in the final class of the namespace regex (hash,
slash, equals)? -/
def isNamespaceEnd (c : Char) : Bool :=
  c = '#' ∨ c = '/' ∨ c = '='

/-- Does the char list match the trailing part of the namespace regex
(dot-star followed by hash, slash or equals, then the dollar anchor)?
Python semantics: the dot does not match a newline, and the dollar
anchor also matches just before one trailing newline. -/
def namespaceTail (cs : List Char) : Bool :=
  (match cs.reverse with
   | e :: body => isNamespaceEnd e && body.all (fun c => c ≠ '\n')
   | [] => false)
  ||
  (match cs.reverse with
   | nl :: e :: body => nl = '\n' && isNamespaceEnd e && body.all (fun c => c ≠ '\n')
   | _ => false)

/-- The part of the namespace regex after the leading letter: a run of
scheme characters, then a colon, then the trailing part. Because a colon
is not a scheme character, the star is forced to consume exactly the
maximal run of scheme characters, so this scan is the regex match. -/
def namespaceAfterFirst : List Char → Bool
  | [] => false
  | c :: rest =>
    if isSchemeChar c then namespaceAfterFirst rest
    else c = ':' && namespaceTail rest

/-- The match of the namespace-validation regex of identification.py
against a string: a letter, scheme characters, a colon, anything up to a
final hash, slash or equals. -/
def namespaceRegexMatch (s : String) : Bool :=
  match s.data with
  | [] => false
  | c :: rest => isRegexAlpha c && namespaceAfterFirst rest

/-- NamespaceIRIGenerator from identification.py: the provider to check
existence against, the validated namespace, and the per-proposal counter
cache. -/
structure NamespaceIRIGenerator where
  provider : Provider
  _namespace : String
  _counter_cache : List (String × Nat)

/-- The constructor of NamespaceIRIGenerator: raises ValueError (none)
unless the namespace matches the validation regex, otherwise stores the
namespace unchanged with an empty counter cache. -/
def NamespaceIRIGenerator.make (ns : String) (provider : Provider) :
    Option NamespaceIRIGenerator :=
  if namespaceRegexMatch ns then some ⟨provider, ns, []⟩ else none

/-- The namespace property of NamespaceIRIGenerator. -/
def NamespaceIRIGenerator.namespace_prop (g : NamespaceIRIGenerator) : String :=
  g._namespace

/-- The 04d format of Python applied to a Nat: decimal, left-padded with
zeros to at least four digits. -/
def format04d (n : Nat) : String :=
  let s := toString n
  String.mk (List.replicate (4 - s.length) '0') ++ s

/-- The candidate identifier built by one iteration of the generate_id
loop from the namespace, the sanitized proposal and the counter. -/
def candidateIri (ns proposal : String) (counter : Nat) : String :=
  if counter ≠ 0 ∨ proposal = "" then
    ns ++ proposal ++ (if proposal ≠ "" then "_" else "") ++ format04d counter
  else
    ns ++ proposal

/-- The while-true loop of generate_id, with explicit fuel (the source
loop is unbounded; it terminates as soon as the provider misses a
candidate). On a miss the counter is cached for the proposal and the
candidate returned; on a hit the counter is incremented. -/
def generateIdLoop (g : NamespaceIRIGenerator) (proposal : String) :
    Nat → Nat → Option (String × NamespaceIRIGenerator)
  | _, 0 => none
  | counter, fuel + 1 =>
    let iri := candidateIri g._namespace proposal counter
    match g.provider iri with
    | none => some (iri, { g with _counter_cache := alSet g._counter_cache proposal counter })
    | some _ => generateIdLoop g proposal (counter + 1) fuel

/-- generate_id of NamespaceIRIGenerator: a missing proposal defaults to
the empty string, the proposal is sanitized, and probing starts at the
cached counter for the sanitized proposal (default 0). -/
def NamespaceIRIGenerator.generate_id (g : NamespaceIRIGenerator)
    (proposal : Option String) (fuel : Nat) : Option (String × NamespaceIRIGenerator) :=
  let p := _quote_iri_segment (proposal.getD "")
  generateIdLoop g p ((alGet g._counter_cache p).getD 0) fuel

/-- Modelled from the spec: a Referable element of the name-keyed
container contract (sections 3 and 4.1 of the spec); the implementation
of the container (NamespaceSet of the model base module) is not among the
given source files, only its tests. A Referable has a short name and a
weak back-reference to the oid of its owning Namespace; oid embeds object
identity as for Identifiable. -/
structure Referable where
  oid : Nat
  id_short : String
  parent : Option Nat
deriving DecidableEq, Repr

/-- Modelled from the spec: a NameKeyedContainer (NamespaceSet) scoped to
one owning Namespace, holding Referable elements with unique short
names. -/
structure NamespaceSet where
  owner : Nat
  elems : List Referable
deriving DecidableEq, Repr

/-- Does the container hold an element with the given short name? -/
def NamespaceSet.containsName (c : NamespaceSet) (n : String) : Bool :=
  c.elems.any (fun x => x.id_short = n)

/-- Identity membership of an element in the container. -/
def NamespaceSet.containsElem (c : NamespaceSet) (e : Referable) : Bool :=
  c.elems.any (fun x => x = e)

/-- Modelled from the spec: add of NameKeyedContainer fails with
DuplicateKey (none) when an element with the same short name already
exists in this container (section 4.1), and insertion is likewise
disallowed (none) while the element is still attached to a container
(section 3, single-parent ownership: "insertion into a second container
is disallowed while still attached to the first"; the cited test shows
add raising for an already-attached element even when its short name is
free in the target container). A failure leaves container and element
unchanged. Otherwise add inserts the element and sets the element's
owning-container back-reference to the container's owner; the attached
element is returned together with the updated container. -/
def NamespaceSet.add (c : NamespaceSet) (e : Referable) :
    Option (NamespaceSet × Referable) :=
  if c.containsName e.id_short then none
  else if e.parent ≠ none then none
  else
    let e' := { e with parent := some c.owner }
    some ({ c with elems := c.elems ++ [e'] }, e')

/-- A concrete multiplexer used in the examples: a provider that always
misses, followed by a provider holding the single identifier x. -/
def muxExample : ObjectProviderMultiplexer :=
  ⟨[fun _ => none, fun k => if k = "x" then some ⟨1, "x"⟩ else none]⟩

/-- The claim-side description of a valid namespace, written from the
words of the spec for comparison with the source regex: a scheme (a
letter, then letters, digits, plus, minus or dot), then a colon, then
anything, ending in hash, slash or equals. -/
def SchemeQualifiedIri (s : String) : Prop :=
  ∃ c mid rest e, s.data = c :: (mid ++ ':' :: (rest ++ [e])) ∧
    isRegexAlpha c = true ∧ mid.all isSchemeChar = true ∧ isNamespaceEnd e = true

/-- The namespace of the generator determinism scenario of the spec. -/
def exNs : String := "https://example.com/ids/"

/-- The object registered under the motor id after the first call of the
scenario. -/
def motorObj : Identifiable := ⟨1, exNs ++ "motor"⟩

/-- The empty store at the start of the scenario. -/
def exStore0 : DictObjectStore := ⟨[]⟩

/-- The store of the scenario after the first generated id is registered. -/
def exStore1 : DictObjectStore := ⟨[(exNs ++ "motor", motorObj)]⟩

/-- A store holding both the motor id and the motor_0000 id. -/
def exStore2 : DictObjectStore :=
  ⟨[(exNs ++ "motor", motorObj),
    (exNs ++ "motor_0000", ⟨2, exNs ++ "motor_0000"⟩)]⟩

/-- The generator at the start of the scenario: its provider sees the
empty store, and the counter cache is empty. -/
def exGen0 : NamespaceIRIGenerator := ⟨exStore0.get_identifiable, exNs, []⟩

/-- The generator before the second call of the scenario: its provider
sees the grown store (the Python provider is a reference to the store
that was mutated) and the counter cache holds the counter committed by
the first call. -/
def exGen1 : NamespaceIRIGenerator := ⟨exStore1.get_identifiable, exNs, [("motor", 0)]⟩

/-- A fresh generator over the store holding motor and motor_0000. -/
def exGen2 : NamespaceIRIGenerator := ⟨exStore2.get_identifiable, exNs, []⟩

/- Association-list lemmas used by the store theorems. -/

theorem alGet_alSet_self {α : Type} (b : List (String × α)) (k : String) (v : α) :
    alGet (alSet b k v) k = some v := by
  induction b with
  | nil => simp [alGet, alSet]
  | cons hd tl ih =>
    obtain ⟨k', v'⟩ := hd
    by_cases h : k' = k <;> simp [alGet, alSet, h, ih]

theorem alSet_eq_of_alGet {α : Type} (b : List (String × α)) (k : String) (v : α)
    (h : alGet b k = some v) : alSet b k v = b := by
  induction b with
  | nil => simp [alGet] at h
  | cons hd tl ih =>
    obtain ⟨k', v'⟩ := hd
    by_cases hk : k' = k
    · simp [alGet, hk] at h
      simp [alSet, hk, h]
    · simp [alGet, hk] at h
      simp [alSet, hk, ih h]

theorem alKeys_cons {α : Type} (k : String) (v : α) (tl : List (String × α)) :
    alKeys ((k, v) :: tl) = k :: alKeys tl := rfl

theorem alGet_eq_none_of_not_mem {α : Type} (b : List (String × α)) (k : String)
    (h : k ∉ alKeys b) : alGet b k = none := by
  induction b with
  | nil => simp [alGet]
  | cons hd tl ih =>
    obtain ⟨k', v'⟩ := hd
    rw [alKeys_cons] at h
    have h1 : k' ≠ k := fun e => h (e ▸ List.mem_cons_self k' (alKeys tl))
    have h2 : k ∉ alKeys tl := fun e => h (List.mem_cons_of_mem k' e)
    simp [alGet, h1, ih h2]

theorem alGet_alDel_self {α : Type} (b : List (String × α)) (k : String)
    (h : (alKeys b).Nodup) : alGet (alDel b k) k = none := by
  induction b with
  | nil => simp [alDel, alGet]
  | cons hd tl ih =>
    obtain ⟨k', v'⟩ := hd
    rw [alKeys_cons, List.nodup_cons] at h
    by_cases hk : k' = k
    · subst hk
      simpa [alDel] using alGet_eq_none_of_not_mem tl k' h.1
    · simp [alDel, hk, alGet, ih h.2]

theorem alSet_length_of_none {α : Type} (b : List (String × α)) (k : String) (v : α)
    (h : alGet b k = none) : (alSet b k v).length = b.length + 1 := by
  induction b with
  | nil => simp [alSet]
  | cons hd tl ih =>
    obtain ⟨k', v'⟩ := hd
    by_cases hk : k' = k
    · simp [alGet, hk] at h
    · simp [alGet, hk] at h
      simp [alSet, hk, ih h]

/-- C1: DictObjectStore.add raises DuplicateKey (none) if and only if the
store already maps the identifier of x to a different object instance; if
the store already holds the same instance x under its id, add does not
raise and leaves the store, hence its length and contents, unchanged;
otherwise add inserts x under its identifier, growing the store by one
entry. -/
theorem dictStore_add_spec (s : DictObjectStore) (x : Identifiable) :
    (s.add x = none ↔ ∃ y, s.get_identifiable x.id = some y ∧ y ≠ x) ∧
    (s.get_identifiable x.id = some x → s.add x = some s) ∧
    (s.get_identifiable x.id = none →
      ∃ s', s.add x = some s' ∧ s'.get_identifiable x.id = some x ∧
        s'.length = s.length + 1) := by
  unfold DictObjectStore.add DictObjectStore.get_identifiable DictObjectStore.length
  cases hg : alGet s._backend x.id with
  | none =>
    refine ⟨by simp [hg], by simp [hg], ?_⟩
    intro _
    exact ⟨⟨alSet s._backend x.id x⟩, by simp [hg],
      alGet_alSet_self s._backend x.id x, alSet_length_of_none s._backend x.id x hg⟩
  | some y =>
    by_cases hxy : y = x
    · subst hxy
      refine ⟨by simp [hg], ?_, by simp [hg]⟩
      intro _
      rw [if_neg (by simp [hg]), alSet_eq_of_alGet _ _ _ hg]
    · exact ⟨by simp [hg, hxy], by simp [hg, hxy], by simp [hg]⟩

/-- C1 witness: in a store holding the object with oid 1 under the
identifier i, adding a distinct object (oid 2) with the same identifier
raises, while re-adding the held instance returns the unchanged store. -/
theorem dictStore_add_spec_witness :
    ((⟨[("i", ⟨1, "i"⟩)]⟩ : DictObjectStore).add ⟨2, "i"⟩ = none) ∧
    ((⟨[("i", ⟨1, "i"⟩)]⟩ : DictObjectStore).add ⟨1, "i"⟩ =
      some ⟨[("i", ⟨1, "i"⟩)]⟩) :=
  ⟨(dictStore_add_spec ⟨[("i", ⟨1, "i"⟩)]⟩ ⟨2, "i"⟩).1.mpr
      ⟨⟨1, "i"⟩, by decide, by decide⟩,
   (dictStore_add_spec ⟨[("i", ⟨1, "i"⟩)]⟩ ⟨1, "i"⟩).2.1 (by decide)⟩

/-- C4: immediately after add succeeds, resolving the identifier of the
object returns that very instance; immediately after discard on a store
holding the object, resolution raises NotFound (none, assuming the dict
invariant of unique keys); and discard removes the entry only when the
store currently maps the identifier to exactly that instance, otherwise
it leaves the store unchanged. -/
theorem dictStore_roundtrip_spec (s : DictObjectStore) (x : Identifiable) :
    (∀ s', s.add x = some s' → s'.get_identifiable x.id = some x) ∧
    (s.WF → s.get_identifiable x.id = some x →
      (s.discard x).get_identifiable x.id = none) ∧
    (s.get_identifiable x.id ≠ some x → s.discard x = s) := by
  refine ⟨?_, ?_, ?_⟩
  · intro s' h
    unfold DictObjectStore.add at h
    split_ifs at h
    injection h with h
    subst h
    exact alGet_alSet_self s._backend x.id x
  · intro hwf hx
    unfold DictObjectStore.get_identifiable at hx
    unfold DictObjectStore.discard
    rw [if_pos hx]
    exact alGet_alDel_self s._backend x.id hwf
  · intro h
    unfold DictObjectStore.get_identifiable at h
    unfold DictObjectStore.discard
    rw [if_neg h]

/-- C4 witness: in a store holding the object with oid 1 under the
identifier u, discarding that instance makes the lookup miss, while
discarding a distinct object (oid 2) with an equal id leaves the store
unchanged. -/
theorem dictStore_roundtrip_witness :
    ((⟨[("u", ⟨1, "u"⟩)]⟩ : DictObjectStore).discard ⟨1, "u"⟩).get_identifiable "u" = none ∧
    (⟨[("u", ⟨1, "u"⟩)]⟩ : DictObjectStore).discard ⟨2, "u"⟩ = ⟨[("u", ⟨1, "u"⟩)]⟩ :=
  ⟨(dictStore_roundtrip_spec ⟨[("u", ⟨1, "u"⟩)]⟩ ⟨1, "u"⟩).2.1 (by decide) (by decide),
   (dictStore_roundtrip_spec ⟨[("u", ⟨1, "u"⟩)]⟩ ⟨2, "u"⟩).2.2 (by decide)⟩

/-- C8: the membership test accepts an identifier string or an object
instance; a string is a member iff some object is stored under that
identifier, and an instance is a member iff the store maps its identifier
to that exact instance, so a distinct object that merely has an equal
identifier is not a member. -/
theorem dictStore_contains_spec (s : DictObjectStore) :
    (∀ k : String, s.contains (.str k) = true ↔ ∃ y, s.get_identifiable k = some y) ∧
    (∀ x : Identifiable, s.contains (.ident x) = true ↔ s.get_identifiable x.id = some x) ∧
    (∀ x y : Identifiable, s.get_identifiable x.id = some y → y ≠ x →
      s.contains (.ident x) = false) := by
  refine ⟨?_, ?_, ?_⟩
  · intro k
    unfold DictObjectStore.contains DictObjectStore.get_identifiable
    cases hg : alGet s._backend k <;> simp [hg]
  · intro x
    unfold DictObjectStore.contains DictObjectStore.get_identifiable
    simp
  · intro x y hy hne
    unfold DictObjectStore.contains
    unfold DictObjectStore.get_identifiable at hy
    simpa [hy] using hne

/-- C8 witness: in a store holding the object with oid 1 under the
identifier w, a distinct object (oid 2) with the same identifier is not a
member, while the identifier string itself is. -/
theorem dictStore_contains_witness :
    (⟨[("w", ⟨1, "w"⟩)]⟩ : DictObjectStore).contains (.ident ⟨2, "w"⟩) = false ∧
    ((⟨[("w", ⟨1, "w"⟩)]⟩ : DictObjectStore).contains (.str "w") = true) :=
  ⟨(dictStore_contains_spec ⟨[("w", ⟨1, "w"⟩)]⟩).2.2 ⟨2, "w"⟩ ⟨1, "w"⟩ (by decide) (by decide),
   (dictStore_contains_spec ⟨[("w", ⟨1, "w"⟩)]⟩).1 "w" |>.mpr ⟨⟨1, "w"⟩, by decide⟩⟩

/-- C10: update adds the elements of the iterable one by one in iteration
order; when adding one element raises DuplicateKey, the call ends (with
the error raised) in the state reached after the elements processed
before it, not in the pre-call state: update is not atomic. -/
theorem dictStore_update_not_atomic (s s1 : DictObjectStore)
    (pre post : List Identifiable) (x : Identifiable)
    (hpre : s.update pre = (s1, false)) (hx : s1.add x = none) :
    s.update (pre ++ x :: post) = (s1, true) := by
  induction pre generalizing s with
  | nil =>
    simp only [DictObjectStore.update] at hpre
    have hs : s = s1 := congrArg Prod.fst hpre
    subst hs
    simp [DictObjectStore.update, hx]
  | cons y ys ih =>
    simp only [DictObjectStore.update] at hpre
    cases hadd : s.add y with
    | none =>
      rw [hadd] at hpre
      have : true = false := congrArg Prod.snd hpre
      cases this
    | some s' =>
      rw [hadd] at hpre
      simp only [List.cons_append, DictObjectStore.update, hadd]
      exact ih s' hpre

/-- C10 witness: starting from the empty store, updating with two distinct
objects carrying the same identifier raises on the second one, and the
first object remains in the store. -/
theorem dictStore_update_witness :
    (⟨[]⟩ : DictObjectStore).update [⟨1, "d"⟩, ⟨2, "d"⟩] =
      (⟨[("d", ⟨1, "d"⟩)]⟩, true) :=
  dictStore_update_not_atomic ⟨[]⟩ ⟨[("d", ⟨1, "d"⟩)]⟩ [⟨1, "d"⟩] [] ⟨2, "d"⟩
    (by decide) (by decide)

theorem mux_none_iff (ps : List Provider) (identifier : String) :
    muxLookup ps identifier = none ↔ ∀ p ∈ ps, p identifier = none := by
  induction ps with
  | nil => simp [muxLookup]
  | cons p ps ih =>
    cases hp : p identifier with
    | none => simp [muxLookup, hp, ih]
    | some v =>
      simp only [muxLookup, hp]
      constructor
      · intro h
        cases h
      · intro h
        have hpn := h p (List.mem_cons_self p ps)
        rw [hp] at hpn
        cases hpn

theorem mux_first_hit (ps : List Provider) (identifier : String) :
    ∀ i : Nat, ∀ h : i < ps.length,
      (∀ j : Nat, ∀ hj : j < ps.length, j < i → ps.get ⟨j, hj⟩ identifier = none) →
      (ps.get ⟨i, h⟩ identifier).isSome →
      muxLookup ps identifier = ps.get ⟨i, h⟩ identifier := by
  induction ps with
  | nil =>
    intro i h
    cases h
  | cons p ps ih =>
    intro i h hmiss hhit
    cases i with
    | zero =>
      cases hp : p identifier with
      | none =>
        rw [show (p :: ps).get ⟨0, h⟩ = p from rfl, hp] at hhit
        cases hhit
      | some v =>
        simp only [muxLookup, hp]
        rw [show (p :: ps).get ⟨0, h⟩ = p from rfl, hp]
    | succ k =>
      have hp0 : p identifier = none :=
        hmiss 0 (Nat.succ_pos _) (Nat.succ_pos _)
      simp only [muxLookup, hp0]
      exact ih k (Nat.lt_of_succ_lt_succ h)
        (fun j hj hlt =>
          hmiss (j + 1) (Nat.succ_lt_succ hj) (Nat.succ_lt_succ hlt))
        hhit

/-- C5: the multiplexer queries its providers in list order and returns
the result of the first provider that does not raise NotFound; it raises
NotFound (none) iff every provider misses, in particular always when the
provider list is empty. The embedded lookup is a pure function of the
multiplexer and the identifier, so the call mutates neither. -/
theorem multiplexer_get_spec (m : ObjectProviderMultiplexer) (identifier : String) :
    (m.get_identifiable identifier = none ↔ ∀ p ∈ m.providers, p identifier = none) ∧
    (∀ i : Nat, ∀ h : i < m.providers.length,
      (∀ j : Nat, ∀ hj : j < m.providers.length, j < i →
        m.providers.get ⟨j, hj⟩ identifier = none) →
      (m.providers.get ⟨i, h⟩ identifier).isSome →
      m.get_identifiable identifier = m.providers.get ⟨i, h⟩ identifier) ∧
    (m.providers = [] → m.get_identifiable identifier = none) := by
  refine ⟨mux_none_iff m.providers identifier, ?_, ?_⟩
  · intro i h hmiss hhit
    exact mux_first_hit m.providers identifier i h hmiss hhit
  · intro h
    unfold ObjectProviderMultiplexer.get_identifiable
    rw [h]
    rfl

/-- C5 witness: for the example multiplexer whose first provider always
misses and whose second holds the identifier x, looking up x returns the
second provider's object, and looking up y misses. -/
theorem multiplexer_get_witness :
    muxExample.get_identifiable "x" = some ⟨1, "x"⟩ ∧
    muxExample.get_identifiable "y" = none := by
  constructor
  · have h := (multiplexer_get_spec muxExample "x").2.1 1 (by simp [muxExample])
      (fun j hj hlt => by
        interval_cases j
        rfl)
      (by rfl)
    exact h.trans rfl
  · exact (mux_none_iff muxExample.providers "y").mpr (by
      intro p hp
      simp [muxExample] at hp
      rcases hp with h | h <;> subst h <;> rfl)

/-- C9: for an element e whose short name is not already used in the
container C, add succeeds exactly when e is not attached to any
container (single-parent ownership: an element still attached elsewhere
is rejected even though its name is free in C); and after any successful
add the attached element is a member of C, its parent back-reference
equals the owner of C, and any subsequent add of an element carrying the
same short name (in particular any different element) fails with
DuplicateKey (none), leaving container and element unchanged. -/
theorem namespaceSet_add_spec (c : NamespaceSet) (e : Referable)
    (h : c.containsName e.id_short = false) :
    (e.parent = none → ∃ c' e', c.add e = some (c', e')) ∧
    (∀ k : Nat, e.parent = some k → c.add e = none) ∧
    (∀ c' e', c.add e = some (c', e') →
      c'.containsElem e' = true ∧ e'.parent = some c.owner ∧
      ∀ f : Referable, f.id_short = e.id_short → c'.add f = none) := by
  refine ⟨?_, ?_, ?_⟩
  · intro hp
    exact ⟨{ c with elems := c.elems ++ [{ e with parent := some c.owner }] },
      { e with parent := some c.owner }, by simp [NamespaceSet.add, h, hp]⟩
  · intro k hk
    simp [NamespaceSet.add, h, hk]
  · intro c' e' hadd
    unfold NamespaceSet.add at hadd
    split_ifs at hadd
    injection hadd with h2
    obtain ⟨h3, h4⟩ := Prod.mk.inj h2
    subst h3
    subst h4
    refine ⟨by simp [NamespaceSet.containsElem], rfl, ?_⟩
    intro f hf
    simp [NamespaceSet.add, NamespaceSet.containsName, hf]

/-- C9 witness: adding the unattached element named Prop1 to an empty
container owned by the namespace with oid 7 succeeds; the resulting
container holds the attached element, whose parent is owner 7, and any
further add under the name Prop1 fails; while adding an element that is
already attached to owner 7 into an empty second container fails even
though its name Prop2 is free there. -/
theorem namespaceSet_add_witness :
    (∃ c' e', (⟨7, []⟩ : NamespaceSet).add ⟨1, "Prop1", none⟩ = some (c', e')) ∧
    ((⟨7, [⟨1, "Prop1", some 7⟩]⟩ : NamespaceSet).containsElem ⟨1, "Prop1", some 7⟩ = true ∧
      (⟨1, "Prop1", some 7⟩ : Referable).parent = some 7 ∧
      ∀ f : Referable, f.id_short = "Prop1" →
        (⟨7, [⟨1, "Prop1", some 7⟩]⟩ : NamespaceSet).add f = none) ∧
    (⟨8, []⟩ : NamespaceSet).add ⟨2, "Prop2", some 7⟩ = none :=
  ⟨(namespaceSet_add_spec ⟨7, []⟩ ⟨1, "Prop1", none⟩ (by decide)).1 rfl,
   (namespaceSet_add_spec ⟨7, []⟩ ⟨1, "Prop1", none⟩ (by decide)).2.2
     ⟨7, [⟨1, "Prop1", some 7⟩]⟩ ⟨1, "Prop1", some 7⟩ (by decide),
   (namespaceSet_add_spec ⟨8, []⟩ ⟨2, "Prop2", some 7⟩ (by decide)).2.1 7 rfl⟩

/-- C2: every candidate tried by generate_id equals the namespace
followed by the sanitized proposal when the counter is 0 and the
sanitized proposal is non-empty, equals namespace, sanitized proposal,
an underscore and the counter zero-padded to width 4 when the counter is
non-zero, and equals the namespace followed directly by the zero-padded
counter when the sanitized proposal is empty; probing starts at the
cached counter for the sanitized proposal (default 0); the loop returns
the first candidate the provider misses, caching that counter for the
proposal, and increments the counter on each collision. -/
theorem generate_id_spec (g : NamespaceIRIGenerator) (proposal : Option String) (fuel : Nat) :
    (g.generate_id proposal fuel =
      generateIdLoop g (_quote_iri_segment (proposal.getD ""))
        ((alGet g._counter_cache (_quote_iri_segment (proposal.getD ""))).getD 0) fuel) ∧
    (∀ p : String, ∀ counter : Nat,
      (counter = 0 → p ≠ "" → candidateIri g._namespace p counter = g._namespace ++ p) ∧
      (counter ≠ 0 → p ≠ "" →
        candidateIri g._namespace p counter =
          g._namespace ++ p ++ "_" ++ format04d counter) ∧
      (p = "" → candidateIri g._namespace p counter = g._namespace ++ format04d counter)) ∧
    (∀ p : String, ∀ counter f : Nat,
      g.provider (candidateIri g._namespace p counter) = none →
      generateIdLoop g p counter (f + 1) =
        some (candidateIri g._namespace p counter,
          { g with _counter_cache := alSet g._counter_cache p counter })) ∧
    (∀ p : String, ∀ counter f : Nat,
      (g.provider (candidateIri g._namespace p counter)).isSome →
      generateIdLoop g p counter (f + 1) = generateIdLoop g p (counter + 1) f) := by
  refine ⟨rfl, ?_, ?_, ?_⟩
  · intro p counter
    refine ⟨?_, ?_, ?_⟩
    · intro hc hp
      subst hc
      rw [candidateIri, if_neg (by simp [hp])]
    · intro hc hp
      rw [candidateIri, if_pos (Or.inl hc), if_pos hp]
    · intro hp
      subst hp
      rw [candidateIri, if_pos (Or.inr rfl)]
      simp
  · intro p counter f h
    simp only [generateIdLoop, h]
  · intro p counter f h
    obtain ⟨v, hv⟩ := Option.isSome_iff_exists.mp h
    simp only [generateIdLoop, hv]

/-- C2 witness: over the namespace https://x/ the counter-2 candidate for
proposal m carries the underscore and the padded counter, and with a
provider that always misses, a loop step at counter 0 returns the
candidate and caches counter 0 for the proposal. -/
theorem generate_id_spec_witness :
    candidateIri "https://x/" "m" 2 = "https://x/" ++ "m" ++ "_" ++ format04d 2 ∧
    generateIdLoop ⟨fun _ => none, "https://x/", []⟩ "m" 0 1 =
      some (candidateIri "https://x/" "m" 0,
        ⟨fun _ => none, "https://x/", [("m", 0)]⟩) :=
  ⟨((generate_id_spec ⟨fun _ => none, "https://x/", []⟩ (some "m") 1).2.1 "m" 2).2.1
      (by decide) (by decide),
   (generate_id_spec ⟨fun _ => none, "https://x/", []⟩ (some "m") 1).2.2.1 "m" 0 0 rfl⟩

/-- C3 counterexample: in the scenario state before the second call (the
motor id registered in the store, counter 0 cached for motor) the code
returns motor_0001, not motor_0000 as the claim states: for a non-empty
proposal the counter-0 candidate carries no suffix, so the first retry
probes counter 1, whose suffix is _0001, and a _0000 candidate is never
tried. -/
theorem generate_id_example_counterexample :
    (exGen1.generate_id (some "motor") 10).map Prod.fst =
      some "https://example.com/ids/motor_0001" ∧
    (exGen1.generate_id (some "motor") 10).map Prod.fst ≠
      some "https://example.com/ids/motor_0000" := by
  constructor
  · rfl
  · decide

/-- C3 amended: on the empty store the first call returns the motor id
with no suffix and caches counter 0 for motor; the second call, made
after that id is registered, returns motor_0001; and a fresh generator
over a store holding both the motor id and motor_0000 likewise returns
motor_0001. -/
theorem generate_id_example_amended :
    (exGen0.generate_id (some "motor") 10).map Prod.fst =
      some "https://example.com/ids/motor" ∧
    (exGen0.generate_id (some "motor") 10).map (fun r => r.2._counter_cache) =
      some [("motor", 0)] ∧
    (exGen1.generate_id (some "motor") 10).map Prod.fst =
      some "https://example.com/ids/motor_0001" ∧
    (exGen2.generate_id (some "motor") 10).map Prod.fst =
      some "https://example.com/ids/motor_0001" :=
  ⟨rfl, rfl, rfl, rfl⟩

/-- C6: the sanitizer contradicts the comment of its own quote table
(Remove ASCII control characters): the deletion entries are built from
range(0, 0x1f), which omits code point 0x1F, so the ASCII control
character U+001F passes through unchanged, while U+001E is deleted,
reserved characters are percent-encoded and the path, query and fragment
characters are kept. -/
theorem quote_iri_control_char_bug :
    _quote_iri_segment (String.mk [Char.ofNat 0x1f]) = String.mk [Char.ofNat 0x1f] ∧
    _quote_iri_segment (String.mk [Char.ofNat 0x1e]) = "" ∧
    _quote_iri_segment "a b" = "a%20b" ∧
    _quote_iri_segment "/?=&#" = "/?=&#" := by
  refine ⟨by decide, by decide, by decide, by decide⟩

theorem namespaceTail_iff (cs : List Char) (hnl : ∀ c ∈ cs, c ≠ '\n') :
    namespaceTail cs = true ↔ ∃ rest e, cs = rest ++ [e] ∧ isNamespaceEnd e = true := by
  cases hrev : cs.reverse with
  | nil =>
    have hcs : cs = [] := by simpa using congrArg List.reverse hrev
    subst hcs
    simp [namespaceTail]
  | cons e body =>
    have hcs : cs = body.reverse ++ [e] := by
      have := congrArg List.reverse hrev
      simpa using this
    have he : e ∈ cs := by rw [hcs]; simp
    have hbody : ∀ c ∈ body, c ≠ '\n' := by
      intro c hc
      exact hnl c (by rw [hcs]; simp [List.mem_reverse.mpr hc])
    constructor
    · intro h
      rw [namespaceTail, hrev] at h
      rcases Bool.or_eq_true_iff.mp h with h1 | h2
      · exact ⟨body.reverse, e, hcs, (Bool.and_eq_true_iff.mp h1).1⟩
      · cases body with
        | nil => simp at h2
        | cons e' body' =>
          have h2' : (e = '\n' ∧ isNamespaceEnd e' = true) ∧ ∀ x ∈ body', ¬x = '\n' := by
            simpa using h2
          exact absurd h2'.1.1 (hnl e he)
    · rintro ⟨rest, f, heq, hf⟩
      have : cs.reverse = f :: rest.reverse := by rw [heq]; simp
      rw [hrev] at this
      obtain ⟨hef, hbr⟩ := List.cons.inj this
      subst hef
      rw [namespaceTail, hrev]
      apply Bool.or_eq_true_iff.mpr
      left
      apply Bool.and_eq_true_iff.mpr
      refine ⟨hf, ?_⟩
      apply List.all_eq_true.mpr
      intro c hc
      simpa using hbody c hc

theorem namespaceAfterFirst_iff (l : List Char) (hnl : ∀ c ∈ l, c ≠ '\n') :
    namespaceAfterFirst l = true ↔
      ∃ mid rest e, l = mid ++ ':' :: (rest ++ [e]) ∧ mid.all isSchemeChar = true ∧
        isNamespaceEnd e = true := by
  induction l with
  | nil =>
    simp [namespaceAfterFirst]
  | cons c l ih =>
    have hnl' : ∀ x ∈ l, x ≠ '\n' := fun x hx => hnl x (List.mem_cons_of_mem c hx)
    by_cases hc : isSchemeChar c = true
    · rw [namespaceAfterFirst, if_pos hc, ih hnl']
      constructor
      · rintro ⟨mid, rest, e, heq, hmid, he⟩
        refine ⟨c :: mid, rest, e, by rw [heq]; rfl, ?_, he⟩
        simpa [List.all_cons, hc] using hmid
      · rintro ⟨mid, rest, e, heq, hmid, he⟩
        cases mid with
        | nil =>
          obtain ⟨hcc, -⟩ := List.cons.inj heq
          rw [hcc] at hc
          exact absurd hc (by decide)
        | cons m mid' =>
          obtain ⟨-, hl⟩ := List.cons.inj heq
          have hmid' : isSchemeChar m = true ∧ ∀ x ∈ mid', isSchemeChar x = true := by
            simpa using hmid
          refine ⟨mid', rest, e, hl, ?_, he⟩
          apply List.all_eq_true.mpr
          intro x hx
          simpa using hmid'.2 x hx
    · rw [namespaceAfterFirst, if_neg hc]
      constructor
      · intro h
        obtain ⟨hcol, htail⟩ := Bool.and_eq_true_iff.mp h
        have hcol' : c = ':' := by simpa using hcol
        obtain ⟨rest, e, heq, he⟩ := (namespaceTail_iff l hnl').mp htail
        exact ⟨[], rest, e, by rw [hcol', heq]; rfl, rfl, he⟩
      · rintro ⟨mid, rest, e, heq, hmid, he⟩
        cases mid with
        | nil =>
          obtain ⟨hcc, hl⟩ := List.cons.inj heq
          apply Bool.and_eq_true_iff.mpr
          refine ⟨by simp [hcc], ?_⟩
          exact (namespaceTail_iff l hnl').mpr ⟨rest, e, hl, he⟩
        | cons m mid' =>
          obtain ⟨hcm, -⟩ := List.cons.inj heq
          have hmid' : isSchemeChar m = true ∧ ∀ x ∈ mid', isSchemeChar x = true := by
            simpa using hmid
          have hcs : isSchemeChar c = true := by rw [hcm]; exact hmid'.1
          exact absurd hcs hc

/-- C7: constructing the namespace generator raises InvalidConfig (none)
iff the namespace fails the validation regex; for namespace strings
without newline characters that regex accepts exactly the scheme
qualified IRIs ending in hash, slash or equals of the claim;
constructing with not-a-namespace raises; and on success the namespace
is stored unchanged and exposed through the namespace property, with the
counter cache starting empty. -/
theorem namespace_validation_spec (ns : String) (p : Provider) :
    (NamespaceIRIGenerator.make ns p = none ↔ namespaceRegexMatch ns = false) ∧
    ((∀ c ∈ ns.data, c ≠ '\n') →
      (namespaceRegexMatch ns = true ↔ SchemeQualifiedIri ns)) ∧
    NamespaceIRIGenerator.make "not-a-namespace" p = none ∧
    (∀ g, NamespaceIRIGenerator.make ns p = some g →
      g._namespace = ns ∧ g.namespace_prop = ns ∧ g.provider = p ∧
        g._counter_cache = []) := by
  refine ⟨?_, ?_, ?_, ?_⟩
  · unfold NamespaceIRIGenerator.make
    cases h : namespaceRegexMatch ns <;> simp [h]
  · intro hnl
    unfold namespaceRegexMatch SchemeQualifiedIri
    cases hd : ns.data with
    | nil => simp
    | cons c l =>
      have hnl' : ∀ x ∈ l, x ≠ '\n' := by
        intro x hx
        exact hnl x (by rw [hd]; exact List.mem_cons_of_mem c hx)
      constructor
      · intro h
        have h' : (isRegexAlpha c && namespaceAfterFirst l) = true := h
        obtain ⟨hα, hrest⟩ := Bool.and_eq_true_iff.mp h'
        obtain ⟨mid, rest, e, heq, hmid, he⟩ := (namespaceAfterFirst_iff l hnl').mp hrest
        exact ⟨c, mid, rest, e, by rw [heq], hα, hmid, he⟩
      · rintro ⟨c', mid, rest, e, heq, hα, hmid, he⟩
        obtain ⟨hcc, hl⟩ := List.cons.inj heq
        show (isRegexAlpha c && namespaceAfterFirst l) = true
        apply Bool.and_eq_true_iff.mpr
        subst hcc
        exact ⟨hα, (namespaceAfterFirst_iff l hnl').mpr ⟨mid, rest, e, hl, hmid, he⟩⟩
  · unfold NamespaceIRIGenerator.make
    rw [if_neg (by decide)]
  · intro g h
    unfold NamespaceIRIGenerator.make at h
    split_ifs at h
    injection h with h
    subst h
    exact ⟨rfl, rfl, rfl, rfl⟩

/-- C7 witness: constructing over not-a-namespace raises; the namespace
of the determinism scenario both passes the regex and satisfies the
claim's description; and construction over it stores it unchanged. -/
theorem namespace_validation_witness :
    NamespaceIRIGenerator.make "not-a-namespace" (fun _ => none) = none ∧
    (namespaceRegexMatch "https://example.com/ids/" = true ↔
      SchemeQualifiedIri "https://example.com/ids/") ∧
    ((⟨fun _ => none, "https://example.com/ids/", []⟩ :
        NamespaceIRIGenerator)._namespace = "https://example.com/ids/" ∧
     (⟨fun _ => none, "https://example.com/ids/", []⟩ :
        NamespaceIRIGenerator).namespace_prop = "https://example.com/ids/" ∧
     (⟨fun _ => none, "https://example.com/ids/", []⟩ :
        NamespaceIRIGenerator).provider = (fun _ => none) ∧
     (⟨fun _ => none, "https://example.com/ids/", []⟩ :
        NamespaceIRIGenerator)._counter_cache = []) :=
  ⟨(namespace_validation_spec "z" (fun _ => none)).2.2.1,
   (namespace_validation_spec "https://example.com/ids/" (fun _ => none)).2.1 (by decide),
   (namespace_validation_spec "https://example.com/ids/" (fun _ => none)).2.2.2
     ⟨fun _ => none, "https://example.com/ids/", []⟩ (by rw [NamespaceIRIGenerator.make, if_pos (by decide)])⟩

end Basyx
